import Mathlib

/-!
Verification development for the yt-lecture-notes pipeline
(`src/generator.py`, `src/main.py`).

The Python source is shallowly embedded: every pure computation becomes a
Lean function over `String` / `List Char`; calls to the external
collaborators (the transcript-retrieval service, the generative text
service, the `pdflatex` subprocess, the file system) are modelled as
explicit parameters carrying the collaborator's outcome, so that each
source function becomes a total Lean function of its inputs and of those
outcomes.  Python strings are modelled as `String` (a list of code
points, matching Python's `len`/indexing on code points).
-/

/-! ### Python string primitives

`str.strip()`, `in`, `startswith`, `endswith`, `lower`, `join`,
`splitlines` are modelled over `List Char`.  `splitlines` handles
Python's full set of line boundaries (`\n`, `\r`, `\r\n`, `\v`, `\f`,
`\x1c`..`\x1e`, `\x85`, `U+2028`, `U+2029`); `strip` handles the ASCII
whitespace characters (every theorem that touches a string end pins that
end to a non-whitespace character, so the exotic Unicode whitespace
Python additionally strips never decides an outcome). -/

/-- Characters removed by Python `str.strip()` (ASCII whitespace). -/
def isPyWhitespace (c : Char) : Bool :=
  c == ' ' || c == '\t' || c == '\n' || c == '\r' || c == '\x0b' || c == '\x0c'

/-- Python `str.strip()` on a character list: drop leading and trailing
whitespace. -/
def pyStripC (l : List Char) : List Char :=
  ((l.dropWhile isPyWhitespace).reverse.dropWhile isPyWhitespace).reverse

/-- Python `str.strip()`. -/
def pyStrip (s : String) : String :=
  String.mk (pyStripC s.data)

/-- Python `a.startswith(b)` on character lists. -/
def listStartsWith : List Char → List Char → Bool
  | _, [] => true
  | [], _ :: _ => false
  | a :: as, b :: bs => a == b && listStartsWith as bs

/-- Python `b in a` (substring containment) on character lists. -/
def listContainsSub : List Char → List Char → Bool
  | [], sub => listStartsWith [] sub
  | l@(_ :: rest), sub => listStartsWith l sub || listContainsSub rest sub

/-- Python `pat in s` for strings. -/
def strContains (s pat : String) : Bool :=
  listContainsSub s.data pat.data

/-- Python `s.startswith(pre)` for strings. -/
def strStartsWith (s pre : String) : Bool :=
  listStartsWith s.data pre.data

/-- Python `s.endswith(suf)` for strings. -/
def strEndsWith (s suf : String) : Bool :=
  listStartsWith s.data.reverse suf.data.reverse

/-- Python `s.lower()` (ASCII case folding; every string compared by the
pipeline is ASCII). -/
def strLower (s : String) : String :=
  String.mk (s.data.map Char.toLower)

/-- Python `sep.join(xs)` for strings. -/
def pyJoin (sep : String) : List String → String
  | [] => ""
  | s :: rest =>
    match rest with
    | [] => s
    | _ :: _ => s ++ sep ++ pyJoin sep rest

/-- Python `"\n".join` on character-list lines. -/
def joinC : List (List Char) → List Char
  | [] => []
  | line :: rest =>
    match rest with
    | [] => line
    | _ :: _ => line ++ '\n' :: joinC rest

/-- The line-boundary characters of Python `str.splitlines()`: `\n`,
`\r`, `\v`, `\f`, the separators `\x1c`/`\x1d`/`\x1e`, next-line `\x85`,
and the Unicode line/paragraph separators `U+2028`/`U+2029`. -/
def isLineBoundary (c : Char) : Bool :=
  c == '\n' || c == '\r' || c == '\x0b' || c == '\x0c' || c == '\x1c' || c == '\x1d' ||
    c == '\x1e' || c == '\x85' || c == '\u2028' || c == '\u2029'

/-- Python `str.splitlines()` on a character list: split at every line
boundary (`\r\n` counting as one), with no trailing empty line for a
trailing terminator. -/
def splitLinesC : List Char → List (List Char)
  | [] => []
  | '\n' :: rest => [] :: splitLinesC rest
  | '\r' :: '\n' :: rest => [] :: splitLinesC rest
  | '\r' :: rest => [] :: splitLinesC rest
  | '\x0b' :: rest => [] :: splitLinesC rest
  | '\x0c' :: rest => [] :: splitLinesC rest
  | '\x1c' :: rest => [] :: splitLinesC rest
  | '\x1d' :: rest => [] :: splitLinesC rest
  | '\x1e' :: rest => [] :: splitLinesC rest
  | '\x85' :: rest => [] :: splitLinesC rest
  | '\u2028' :: rest => [] :: splitLinesC rest
  | '\u2029' :: rest => [] :: splitLinesC rest
  | c :: rest =>
    match splitLinesC rest with
    | [] => [[c]]
    | line :: lines => (c :: line) :: lines

/-- The markdown code-fence delimiter. -/
def fenceChars : List Char := "```".data

/-- The backtick character (written via the string literal). -/
def backtick : Char := "`".data.headD ' '

/-- Python `s.replace('```', '')`: delete every (leftmost, non-overlapping)
occurrence of the three-backtick fence delimiter. -/
def removeFence : List Char → List Char
  | a :: b :: c :: rest =>
    if [a, b, c] == fenceChars then removeFence rest
    else a :: removeFence (b :: c :: rest)
  | l => l

/-- Every character of `s` is either not a line boundary or the plain
newline: `splitlines` splits such strings exactly at their newlines, so
joining the lines with `\n` restores them. -/
def onlyNlBoundaries (s : String) : Bool :=
  s.data.all (fun c => !(isLineBoundary c) || c == '\n')

/-! ### Outcomes of the external collaborators -/

/-- Outcome of one `client.models.generate_content` call, as observed by the
caller: either the call raised, or it returned with a text payload.  A
`None`/empty `response.text` is modelled as `success ""` (both are falsy
in the `if not response.text` guards of the source). -/
inductive GenOutcome where
  | failure (msg : String)
  | success (text : String)
deriving Repr, DecidableEq

/-- Outcome of the `YouTubeTranscriptApi` fetch: the ordered `text` fields
of the caption records, or a service error message. -/
inductive FetchOutcome where
  | ok (texts : List String)
  | err (msg : String)
deriving Repr, DecidableEq

/-- Outcome of one `subprocess.run(["pdflatex", ...], check=True)` attempt:
clean exit, non-zero exit (`CalledProcessError`), missing binary
(`FileNotFoundError`), or any other exception. -/
inductive ToolOutcome where
  | ok
  | exitNonzero (diag : String)
  | notFound
  | otherExc (msg : String)
deriving Repr, DecidableEq

/-! ### `generator.py`: the regex-based identifier extraction

`re.search` with the patterns of `extract_video_id` and
`get_youtube_transcript` is embedded directly: each pattern is a literal
alternation followed by exactly eleven identifier-class characters, so
`re.search` is the leftmost position at which some alternative's literal
is followed by eleven such characters (backtracking across alternatives
at a fixed position included).  The trailing `.*` of the
`get_youtube_transcript` pattern matches every remainder (including the
empty one) and so constrains nothing. -/

/-- The character class `[a-zA-Z0-9_-]` (identical to `[0-9A-Za-z_-]`). -/
def isIdChar (c : Char) : Bool :=
  ('a' ≤ c && c ≤ 'z') || ('A' ≤ c && c ≤ 'Z') || ('0' ≤ c && c ≤ '9') ||
    c == '_' || c == '-'

/-- Match a literal at the head of `l`, returning the remainder. -/
def stripLit : List Char → List Char → Option (List Char)
  | [], l => some l
  | _ :: _, [] => none
  | a :: as, b :: bs => if a == b then stripLit as bs else none

/-- Take exactly `n` identifier-class characters from the head of `l`. -/
def takeId : Nat → List Char → Option (List Char)
  | 0, _ => some []
  | _ + 1, [] => none
  | n + 1, c :: cs => if isIdChar c then (takeId n cs).map (fun g => c :: g) else none

/-- At a fixed position, try each alternative literal in order, each
followed by exactly eleven identifier characters (the capture group). -/
def matchHere (alts : List (List Char)) (l : List Char) : Option (List Char) :=
  match alts with
  | [] => none
  | a :: rest =>
    match stripLit a l with
    | some l2 =>
      match takeId 11 l2 with
      | some g => some g
      | none => matchHere rest l
    | none => matchHere rest l

/-- `re.search`: try `matchHere` at each position, leftmost first. -/
def reSearch (alts : List (List Char)) : List Char → Option (List Char)
  | [] => matchHere alts []
  | c :: rest =>
    match matchHere alts (c :: rest) with
    | some g => some g
    | none => reSearch alts rest

/-- `generator.extract_video_id`: the three patterns
`(?:v=|youtu\.be/)([a-zA-Z0-9_-]{11})`, `/embed/([a-zA-Z0-9_-]{11})`,
`/v/([a-zA-Z0-9_-]{11})`, tried in order; first match's group wins. -/
def extract_video_id (url : String) : Option String :=
  match reSearch ["v=".data, "youtu.be/".data] url.data with
  | some g => some (String.mk g)
  | none =>
  match reSearch ["/embed/".data] url.data with
  | some g => some (String.mk g)
  | none =>
  match reSearch ["/v/".data] url.data with
  | some g => some (String.mk g)
  | none => none

/-- The identifier match of `generator.get_youtube_transcript`:
`re.search(r"(?:v=|\/)([0-9A-Za-z_-]{11}).*", youtube_url)`, returning
`group(1)`. -/
def fetchVideoId (url : String) : Option String :=
  (reSearch ["v=".data, "/".data] url.data).map String.mk

/-! ### `generator.py`: refinement, classification, templates -/

/-- `generator.refine_transcript_for_notes`, lines 44-90: on a raised
service call it falls back to the raw transcript; on an empty response it
falls back to the raw transcript; otherwise it strips the response,
deletes every ``` occurrence and strips again.  (The construction of
`refine_prompt` only shapes the request and is not modelled.) -/
def refine_transcript_for_notes (raw : String) (outcome : GenOutcome) : String :=
  match outcome with
  | .failure _ => raw
  | .success t =>
    if t == "" then raw
    else pyStrip (String.mk (removeFence (pyStrip t).data))

/-- `generator.get_youtube_transcript`, lines 23-42: match the video id
(else the `"Invalid YouTube URL"` payload), fetch the captions (a failure
becomes the descriptive error payload), join the caption texts with
single spaces, and refine. -/
def get_youtube_transcript (url : String) (fetch : FetchOutcome)
    (refineOutcome : GenOutcome) : String :=
  match fetchVideoId url with
  | none => "Invalid YouTube URL"
  | some _ =>
    match fetch with
    | .err msg =>
      "Error fetching transcript: " ++ msg ++
        " (Common causes: no captions, private video, region-restricted, subtitles disabled)"
    | .ok texts =>
      let raw_transcript := pyJoin " " texts
      refine_transcript_for_notes raw_transcript refineOutcome

/-- The category enumeration of `classify_transcript_subject`, line 96. -/
def categories : List String :=
  ["Math", "Programming", "Chemistry", "Physics", "MachineLearning", "General"]

/-- `generator.classify_transcript_subject`, lines 92-135: `resp = none`
models a raised service call (or a `None` `response.text`, whose
`.strip()` raises inside the same `try`); otherwise the stripped response
is matched case-insensitively, in enumeration order, for the first
category name occurring as a substring; no match falls back to
`"General"`.  Only the leading 3500 characters of `transcript` shape the
request, which does not influence the returned value. -/
def classify_transcript_subject (transcript : String) (resp : Option String) : String :=
  match resp with
  | none => "General"
  | some rtext =>
    let text := pyStrip rtext
    match categories.find? (fun cat => strContains (strLower text) (strLower cat)) with
    | some cat => cat
    | none => "General"

/-! ### `generator.get_subject_prompt`, lines 137-224

The six template texts are transcribed from the source f-strings
(`{{`/`}}` are the literal braces of the f-string syntax; `\x7b`/`\x7d`
below are those literal braces). -/

/-- `base_packages`, line 138. -/
def base_packages : String := "amsmath, amssymb, enumitem, hyperref, geometry"

/-- The `"Math"` template, lines 141-155. -/
def mathPrompt : String :=
  "\nConvert the following lecture transcript into clean, professional LaTeX lecture notes focused on mathematics.\nRULES - FOLLOW EXACTLY:\n- Output ONLY the LaTeX code.\n- Do NOT use markdown or code blocks.\n- Start directly with \\documentclass\x7barticle\x7d\n- End with \\end\x7bdocument\x7d\n- Use packages: " ++
    base_packages ++
    ", mathtools, cancel, tikz (if diagrams needed)\n- Use display math ($$ or \\[ \\]) for important equations, align/environment for multi-line\n- Use theorem-like environments (definition, theorem, lemma, proof) via amsthm if useful\n- Number equations when appropriate\n- Make heavy use of proper math mode\n- Structure with sections, subsections, itemize/enumerate\nTranscript:\n"

/-- The `"Programming"` template, lines 157-169. -/
def programmingPrompt : String :=
  "\nConvert the following programming lecture transcript into clean LaTeX notes.\nRULES - FOLLOW EXACTLY:\n- Output ONLY the LaTeX code.\n- Start directly with \\documentclass\x7barticle\x7d\n- End with \\end\x7bdocument\x7d\n- Use packages: " ++
    base_packages ++
    ", listings, xcolor\n- Use \\lstset for code styling (language=[language if detectable], basicstyle=\\ttfamily\\small, etc.)\n- Put code snippets in lstlisting environments\n- Explain concepts clearly with itemize/enumerate\n- Include comments from speech as explanations\nTranscript:\n"

/-- The `"Chemistry"` template, lines 171-182. -/
def chemistryPrompt : String :=
  "\nConvert the following chemistry lecture transcript into professional LaTeX notes.\nRULES - FOLLOW EXACTLY:\n- Output ONLY the LaTeX code.\n- Start directly with \\documentclass\x7barticle\x7d\n- End with \\end\x7bdocument\x7d\n- Use packages: " ++
    base_packages ++
    ", mhchem, chemfig (for structures if mentioned)\n- Use \\ce\x7b\x7d for chemical equations and formulas\n- Draw reaction schemes if described\n- Use tables for periodic trends, data, etc.\nTranscript:\n"

/-- The `"Physics"` template, lines 184-195. -/
def physicsPrompt : String :=
  "\nConvert the following physics lecture transcript into clean LaTeX notes.\nRULES - FOLLOW EXACTLY:\n- Output ONLY the LaTeX code.\n- Start directly with \\documentclass\x7barticle\x7d\n- End with \\end\x7bdocument\x7d\n- Use packages: " ++
    base_packages ++
    ", siunitx, physunits, tikz (for diagrams)\n- Use \\si\x7b\x7d for units, proper vector notation\n- Heavy use of equations in display math\n- Include diagrams if described (using tikz if possible)\nTranscript:\n"

/-- The `"MachineLearning"` template, lines 197-208. -/
def machineLearningPrompt : String :=
  "\nConvert the following machine learning/AI lecture transcript into LaTeX notes.\nRULES - FOLLOW EXACTLY:\n- Output ONLY the LaTeX code.\n- Start directly with \\documentclass\x7barticle\x7d\n- End with \\end\x7bdocument\x7d\n- Use packages: " ++
    base_packages ++
    ", algorithm, algorithmicx, algpseudocode, listings\n- Use math mode extensively for loss functions, gradients, etc.\n- Include pseudocode in algorithm environments when explained\n- Use tikz for neural network diagrams if described\nTranscript:\n"

/-- The `"General"` template, lines 210-221. -/
def generalPrompt : String :=
  "\nConvert the following lecture transcript into clean, structured LaTeX notes.\nRULES - FOLLOW EXACTLY:\n- Output ONLY the LaTeX code.\n- Start directly with \\documentclass\x7barticle\x7d\n- End with \\end\x7bdocument\x7d\n- Use packages: " ++
    base_packages ++
    "\n- Use sections/subsections, itemize/enumerate, bold/italic\n- Use math mode when equations appear ($...$ or \\[ \\])\n- Be concise and well-organized\nTranscript:\n"

/-- `generator.get_subject_prompt`: `prompts.get(subject, prompts["General"])`
over the six-entry dict — the matching entry, `"General"`'s entry for any
other key. -/
def get_subject_prompt (subject : String) : String :=
  if subject == "Math" then mathPrompt
  else if subject == "Programming" then programmingPrompt
  else if subject == "Chemistry" then chemistryPrompt
  else if subject == "Physics" then physicsPrompt
  else if subject == "MachineLearning" then machineLearningPrompt
  else generalPrompt

/-! ### `generator.generate_latex_notes`, lines 226-253 -/

/-- The sanitization of `generate_latex_notes`, lines 243-248: strip the
response; if it contains a fence delimiter, drop every line whose
stripped form starts with ``` (`line.strip().startswith('```')`), rejoin
with newlines and strip again. -/
def sanitizeLatex (t : String) : String :=
  let latex_code := pyStrip t
  if strContains latex_code "```" then
    let lines := splitLinesC latex_code.data
    let cleaned_lines := lines.filter (fun line => !(listStartsWith (pyStripC line) fenceChars))
    pyStrip (String.mk (joinC cleaned_lines))
  else latex_code

/-- `generator.generate_latex_notes`: classify, select the template,
concatenate template and transcript into the request (the request only
shapes the service call), then: a raised call yields the
`"Error during LaTeX generation: ..."` payload; an empty response yields
`"Error: No response from Gemini"`; otherwise the sanitized response. -/
def generate_latex_notes (transcript : String) (classifyResp : Option String)
    (resp : GenOutcome) : String :=
  let subject := classify_transcript_subject transcript classifyResp
  let full_prompt := get_subject_prompt subject ++ transcript
  match resp with
  | .failure msg => "Error during LaTeX generation: " ++ msg
  | .success t =>
    if t == "" then "Error: No response from Gemini"
    else sanitizeLatex t

/-- Modelled from the claim's words (C4): remove exactly the lines that
are purely a bare code-fence marker (stripped content equal to the
delimiter), rejoin the remaining lines.  Compared against the source's
sanitization, which removes every line whose stripped content merely
starts with the delimiter. -/
def sanitizeBareFenceOnly (t : String) : String :=
  let latex_code := pyStrip t
  let lines := splitLinesC latex_code.data
  let cleaned_lines := lines.filter (fun line => !(pyStripC line == fenceChars))
  pyStrip (String.mk (joinC cleaned_lines))

/-! ### `generator.compile_latex_to_pdf`, lines 255-299

The observable effects are modelled as a trace: how many `pdflatex`
invocations were attempted (`for _ in range(2)` with `check=True`),
whether the function returned with the process working directory still
changed to the output directory (`os.chdir(output_dir)` with the matching
`os.chdir(original_cwd)` only on the in-`try` success path), and whether
the produced artifact was reported and the byproducts deleted
(`pdf_file.exists()`). -/

structure CompileTrace where
  invocations : Nat
  cwdIsOutputDir : Bool
  pdfReported : Bool
  byproductsDeleted : Bool
deriving Repr, DecidableEq

/-- Whether a `subprocess.run(..., check=True)` attempt raises
(`CalledProcessError` on a non-zero exit, `FileNotFoundError` on a
missing binary, or any other exception). -/
def toolRaises : ToolOutcome → Bool
  | .ok => false
  | .exitNonzero _ => true
  | .notFound => true
  | .otherExc _ => true

/-- `generator.compile_latex_to_pdf`: write the source, `chdir` into the
output directory, attempt the first `pdflatex` run (a raise is caught by
the matching `except` and the function returns — the `chdir` back is
never reached), else attempt the second run likewise, else `chdir` back
and report/clean up according to the artifact's existence. -/
def compile_latex_to_pdf (first second : ToolOutcome) (pdfExists : Bool) : CompileTrace :=
  if toolRaises first then
    { invocations := 1, cwdIsOutputDir := true,
      pdfReported := false, byproductsDeleted := false }
  else if toolRaises second then
    { invocations := 2, cwdIsOutputDir := true,
      pdfReported := false, byproductsDeleted := false }
  else
    { invocations := 2, cwdIsOutputDir := false,
      pdfReported := pdfExists, byproductsDeleted := pdfExists }

/-! ### `main.py`: the orchestrator, lines 94-179

The run is modelled as a function of the collaborator outcomes.  Exit
code 0 is the interpreter's normal termination after the success summary;
the `except Exception` handler calls `sys.exit(2)` (the
`KeyboardInterrupt` handler's `sys.exit(130)` models external
interruption and is outside every claim).  File writes that the control
flow reaches always succeed in this model (file-system errors are not
modelled). -/

structure RunTrace where
  exitCode : Nat
  transcriptSaved : Bool
  texSaved : Bool
  generationInvoked : Bool
  compilationInvoked : Bool
deriving Repr, DecidableEq

/-- `main.main`, the `try` block of lines 122-176: fetch the transcript,
raise `ValueError` (caught below, `sys.exit(2)`) when its stripped length
is under 200, else write `transcript.txt`, generate the notes, write
`lecture_notes.tex`, and compile unless `--no-pdf` was given. -/
def mainRun (url : String) (fetch : FetchOutcome) (refineOutcome : GenOutcome)
    (classifyResp : Option String) (genResp : GenOutcome) (noPdf : Bool) : RunTrace :=
  let transcript := get_youtube_transcript url fetch refineOutcome
  if (pyStrip transcript).length < 200 then
    { exitCode := 2, transcriptSaved := false, texSaved := false,
      generationInvoked := false, compilationInvoked := false }
  else
    let _latex_content := generate_latex_notes transcript classifyResp genResp
    { exitCode := 0, transcriptSaved := true, texSaved := true,
      generationInvoked := true, compilationInvoked := !noPdf }

/-! ### Helper lemmas: strings and lists -/

theorem strdata_append (a b : String) : (a ++ b).data = a.data ++ b.data := rfl

theorem strmk_data (s : String) : String.mk s.data = s := rfl

theorem strdata_inj {a b : String} (h : a.data = b.data) : a = b := by
  cases a; cases b; exact congrArg String.mk h

theorem listStartsWith_iff : ∀ (l pre : List Char), listStartsWith l pre = true ↔ ∃ r, l = pre ++ r
  | l, [] => by simp [listStartsWith]
  | [], _ :: _ => by simp [listStartsWith]
  | a :: as, b :: bs => by
    simp only [listStartsWith, Bool.and_eq_true, beq_iff_eq, List.cons_append, List.cons_eq_cons]
    constructor
    · rintro ⟨rfl, h⟩
      obtain ⟨r, rfl⟩ := (listStartsWith_iff as bs).mp h
      exact ⟨r, rfl, rfl⟩
    · rintro ⟨r, rfl, rfl⟩
      exact ⟨rfl, (listStartsWith_iff (bs ++ r) bs).mpr ⟨r, rfl⟩⟩

theorem listContainsSub_iff :
    ∀ (l sub : List Char), listContainsSub l sub = true ↔ ∃ x y, l = x ++ sub ++ y
  | [], sub => by
    constructor
    · intro h
      obtain ⟨r, hr⟩ := (listStartsWith_iff [] sub).mp h
      exact ⟨[], r, by simpa using hr⟩
    · rintro ⟨x, y, h⟩
      have hx : x = [] ∧ sub ++ y = [] := by
        simpa [List.append_assoc, List.append_eq_nil] using h.symm
      have hs : sub = [] ∧ y = [] := by simpa [List.append_eq_nil] using hx.2
      obtain ⟨rfl, -⟩ := hs
      exact (listStartsWith_iff [] []).mpr ⟨[], rfl⟩
  | c :: rest, sub => by
    constructor
    · intro h
      rcases Bool.or_eq_true_iff.mp h with h1 | h2
      · obtain ⟨r, hr⟩ := (listStartsWith_iff (c :: rest) sub).mp h1
        exact ⟨[], r, by simpa using hr⟩
      · obtain ⟨x, y, hxy⟩ := (listContainsSub_iff rest sub).mp h2
        exact ⟨c :: x, y, by simp [hxy]⟩
    · rintro ⟨x, y, h⟩
      show (listStartsWith (c :: rest) sub || listContainsSub rest sub) = true
      cases x with
      | nil =>
        refine Bool.or_eq_true_iff.mpr (Or.inl ?_)
        exact (listStartsWith_iff (c :: rest) sub).mpr ⟨y, by simpa using h⟩
      | cons x0 xs =>
        refine Bool.or_eq_true_iff.mpr (Or.inr ?_)
        have h2 : rest = xs ++ sub ++ y := by
          have := h
          simp only [List.cons_append, List.cons_eq_cons] at this
          exact this.2
        exact (listContainsSub_iff rest sub).mpr ⟨xs, y, h2⟩

theorem listContainsSub_of_startsWith {l sub : List Char}
    (h : listStartsWith l sub = true) : listContainsSub l sub = true := by
  cases l with
  | nil => simpa [listContainsSub] using h
  | cons c rest => simp [listContainsSub, h]

/-! ### Helper lemmas: `splitLinesC` and `joinC` -/

theorem splitLinesC_cons_nl (rest : List Char) :
    splitLinesC ('\n' :: rest) = [] :: splitLinesC rest :=
  splitLinesC.eq_2 rest

theorem splitLinesC_cr_nl (rest : List Char) :
    splitLinesC ('\r' :: '\n' :: rest) = [] :: splitLinesC rest :=
  splitLinesC.eq_3 rest

theorem splitLinesC_cr_other (rest : List Char) (h : ∀ rest2, rest ≠ '\n' :: rest2) :
    splitLinesC ('\r' :: rest) = [] :: splitLinesC rest :=
  splitLinesC.eq_4 rest (fun rest2 he => h rest2 he)

theorem splitLinesC_cons_bnd (c : Char) (rest : List Char)
    (hc : isLineBoundary c = true) (h1 : c ≠ '\n') (h2 : c ≠ '\r') :
    splitLinesC (c :: rest) = [] :: splitLinesC rest := by
  simp only [isLineBoundary, Bool.or_eq_true, beq_iff_eq] at hc
  rcases hc with ((((((((rfl | rfl) | rfl) | rfl) | rfl) | rfl) | rfl) | rfl) | rfl) | rfl
  · exact absurd rfl h1
  · exact absurd rfl h2
  · exact splitLinesC.eq_5 rest
  · exact splitLinesC.eq_6 rest
  · exact splitLinesC.eq_7 rest
  · exact splitLinesC.eq_8 rest
  · exact splitLinesC.eq_9 rest
  · exact splitLinesC.eq_10 rest
  · exact splitLinesC.eq_11 rest
  · exact splitLinesC.eq_12 rest

theorem splitLinesC_cons_other (c : Char) (rest : List Char)
    (hc : isLineBoundary c = false) :
    splitLinesC (c :: rest) =
      match splitLinesC rest with
      | [] => [[c]]
      | line :: lines => (c :: line) :: lines := by
  have hs := hc
  simp only [isLineBoundary, Bool.or_eq_false_iff, beq_eq_false_iff_ne] at hs
  obtain ⟨⟨⟨⟨⟨⟨⟨⟨⟨h1, h2⟩, h3⟩, h4⟩, h5⟩, h6⟩, h7⟩, h8⟩, h9⟩, h10⟩ := hs
  exact splitLinesC.eq_13 c rest (fun he => h1 he) (fun _ he _ => h2 he) (fun he => h2 he)
    (fun he => h3 he) (fun he => h4 he) (fun he => h5 he) (fun he => h6 he)
    (fun he => h7 he) (fun he => h8 he) (fun he => h9 he) (fun he => h10 he)

theorem splitLinesC_ne_nil : ∀ (l : List Char), l ≠ [] → splitLinesC l ≠ [] := by
  intro l h
  match l with
  | c :: rest =>
    by_cases h1 : c = '\n'
    · subst h1; rw [splitLinesC_cons_nl]; exact List.cons_ne_nil _ _
    · by_cases h2 : c = '\r'
      · subst h2
        match rest with
        | '\n' :: rest2 => rw [splitLinesC_cr_nl]; exact List.cons_ne_nil _ _
        | [] => rw [splitLinesC_cr_other [] (by simp)]; exact List.cons_ne_nil _ _
        | e :: rest2 =>
          by_cases he : e = '\n'
          · subst he; rw [splitLinesC_cr_nl]; exact List.cons_ne_nil _ _
          · rw [splitLinesC_cr_other (e :: rest2) (by simp [he])]; exact List.cons_ne_nil _ _
      · by_cases hb : isLineBoundary c = true
        · rw [splitLinesC_cons_bnd c rest hb h1 h2]; exact List.cons_ne_nil _ _
        · rw [splitLinesC_cons_other c rest (by simpa using hb)]
          rcases hres : splitLinesC rest with - | ⟨lr, lsr⟩ <;> simp

theorem splitLinesC_head_split :
    ∀ (l line : List Char) (lines : List (List Char)),
      splitLinesC l = line :: lines → ∃ y, l = line ++ y
  | [], line, lines, h => by simp [splitLinesC] at h
  | c :: rest, line, lines, h => by
    by_cases h1 : c = '\n'
    · subst h1
      rw [splitLinesC_cons_nl] at h
      obtain ⟨rfl, -⟩ := List.cons_eq_cons.mp h
      exact ⟨'\n' :: rest, rfl⟩
    · by_cases h2 : c = '\r'
      · subst h2
        have hline : line = [] := by
          match rest, h with
          | '\n' :: rest2, h => rw [splitLinesC_cr_nl] at h; exact (List.cons_eq_cons.mp h).1.symm
          | [], h =>
            rw [splitLinesC_cr_other [] (by simp)] at h
            exact (List.cons_eq_cons.mp h).1.symm
          | e :: rest2, h =>
            by_cases he : e = '\n'
            · subst he; rw [splitLinesC_cr_nl] at h; exact (List.cons_eq_cons.mp h).1.symm
            · rw [splitLinesC_cr_other (e :: rest2) (by simp [he])] at h
              exact (List.cons_eq_cons.mp h).1.symm
        subst hline
        exact ⟨'\r' :: rest, rfl⟩
      · by_cases hb : isLineBoundary c = true
        · rw [splitLinesC_cons_bnd c rest hb h1 h2] at h
          obtain ⟨rfl, -⟩ := List.cons_eq_cons.mp h
          exact ⟨c :: rest, rfl⟩
        · rw [splitLinesC_cons_other c rest (by simpa using hb)] at h
          rcases hres : splitLinesC rest with - | ⟨lr, lsr⟩
          · rw [hres] at h
            simp only at h
            obtain ⟨rfl, -⟩ := List.cons_eq_cons.mp h
            exact ⟨rest, rfl⟩
          · rw [hres] at h
            simp only at h
            obtain ⟨rfl, -⟩ := List.cons_eq_cons.mp h
            obtain ⟨y, hy⟩ := splitLinesC_head_split rest lr lsr hres
            exact ⟨y, by rw [hy]; rfl⟩

theorem splitLinesC_mem_split_n :
    ∀ (n : Nat) (l line : List Char), l.length ≤ n → line ∈ splitLinesC l →
      ∃ x y, l = x ++ line ++ y := by
  intro n
  induction n with
  | zero =>
    intro l line hl h
    have : l = [] := List.length_eq_zero.mp (Nat.le_zero.mp hl)
    subst this
    simp [splitLinesC] at h
  | succ n ih =>
    intro l line hl h
    rcases l with - | ⟨c, rest⟩
    · simp [splitLinesC] at h
    · have hrl : rest.length ≤ n := by simpa using hl
      by_cases h1 : c = '\n'
      · subst h1
        rw [splitLinesC_cons_nl] at h
        rcases List.mem_cons.mp h with rfl | h2
        · exact ⟨[], '\n' :: rest, rfl⟩
        · obtain ⟨x, y, rfl⟩ := ih rest line hrl h2
          exact ⟨'\n' :: x, y, rfl⟩
      · by_cases h2 : c = '\r'
        · subst h2
          rcases rest with - | ⟨e, rest2⟩
          · rw [splitLinesC_cr_other [] (by simp)] at h
            rcases List.mem_cons.mp h with rfl | h3
            · exact ⟨[], '\r' :: [], rfl⟩
            · simp [splitLinesC] at h3
          · by_cases he : e = '\n'
            · subst he
              rw [splitLinesC_cr_nl] at h
              rcases List.mem_cons.mp h with rfl | h3
              · exact ⟨[], '\r' :: '\n' :: rest2, rfl⟩
              · obtain ⟨x, y, rfl⟩ :=
                  ih rest2 line (Nat.le_of_succ_le (by simpa using hrl)) h3
                exact ⟨'\r' :: '\n' :: x, y, rfl⟩
            · rw [splitLinesC_cr_other (e :: rest2) (by simp [he])] at h
              rcases List.mem_cons.mp h with rfl | h3
              · exact ⟨[], '\r' :: e :: rest2, rfl⟩
              · obtain ⟨x, y, hxy⟩ := ih (e :: rest2) line hrl h3
                exact ⟨'\r' :: x, y, by simp [hxy]⟩
        · by_cases hb : isLineBoundary c = true
          · rw [splitLinesC_cons_bnd c rest hb h1 h2] at h
            rcases List.mem_cons.mp h with rfl | h3
            · exact ⟨[], c :: rest, rfl⟩
            · obtain ⟨x, y, rfl⟩ := ih rest line hrl h3
              exact ⟨c :: x, y, rfl⟩
          · rw [splitLinesC_cons_other c rest (by simpa using hb)] at h
            rcases hres : splitLinesC rest with - | ⟨lr, lsr⟩
            · rw [hres] at h
              simp only [List.mem_singleton] at h
              subst h
              exact ⟨[], rest, rfl⟩
            · rw [hres] at h
              rcases List.mem_cons.mp h with rfl | h3
              · obtain ⟨y, hy⟩ := splitLinesC_head_split rest lr lsr hres
                exact ⟨[], y, by rw [hy]; rfl⟩
              · obtain ⟨x, y, rfl⟩ :=
                  ih rest line hrl (hres ▸ List.mem_cons_of_mem lr h3)
                exact ⟨c :: x, y, rfl⟩

theorem splitLinesC_mem_split (l line : List Char) (h : line ∈ splitLinesC l) :
    ∃ x y, l = x ++ line ++ y :=
  splitLinesC_mem_split_n l.length l line (Nat.le_refl _) h

theorem joinC_cons_cons (c : Char) (x0 : List Char) (xs : List (List Char)) :
    joinC ((c :: x0) :: xs) = c :: joinC (x0 :: xs) := by
  cases xs <;> simp [joinC]

theorem splitLinesC_append (m : List Char) (d : Char) (b : List Char)
    (hm : m.all (fun c => !(isLineBoundary c) || c == '\n') = true)
    (hd : isLineBoundary d = false) :
    splitLinesC ((m ++ [d]) ++ '\n' :: b) = splitLinesC (m ++ [d]) ++ splitLinesC b := by
  induction m with
  | nil =>
    simp only [List.nil_append, List.cons_append]
    rw [splitLinesC_cons_other d ('\n' :: b) hd, splitLinesC_cons_nl,
      splitLinesC_cons_other d [] hd]
    simp [splitLinesC]
  | cons c m' ihm =>
    obtain ⟨hc, hm'⟩ : (!(isLineBoundary c) || c == '\n') = true ∧
        m'.all (fun e => !(isLineBoundary e) || e == '\n') = true := by
      simpa [List.all_cons] using hm
    by_cases hc1 : c = '\n'
    · subst hc1
      have e1 : (('\n' :: m') ++ [d]) ++ '\n' :: b = '\n' :: ((m' ++ [d]) ++ '\n' :: b) := by simp
      have e2 : ('\n' :: m') ++ [d] = '\n' :: (m' ++ [d]) := by simp
      rw [e1, e2, splitLinesC_cons_nl, splitLinesC_cons_nl, ihm hm']
      simp
    · have hcb : isLineBoundary c = false := by
        rcases Bool.or_eq_true_iff.mp hc with hcb1 | hcb2
        · simpa using hcb1
        · exact absurd (beq_iff_eq.mp hcb2) hc1
      have e1 : ((c :: m') ++ [d]) ++ '\n' :: b = c :: ((m' ++ [d]) ++ '\n' :: b) := by simp
      have e2 : (c :: m') ++ [d] = c :: (m' ++ [d]) := by simp
      rw [e1, e2, splitLinesC_cons_other c _ hcb, splitLinesC_cons_other c _ hcb,
        ihm hm']
      have hne : splitLinesC (m' ++ [d]) ≠ [] := splitLinesC_ne_nil _ (by simp)
      obtain ⟨x0, xs, hx⟩ := List.exists_cons_of_ne_nil hne
      rw [hx]
      simp

theorem joinC_splitLinesC :
    ∀ (l : List Char), l.all (fun c => !(isLineBoundary c) || c == '\n') = true →
      (l = [] ∨ ∃ m d, l = m ++ [d] ∧ d ≠ '\n') →
      joinC (splitLinesC l) = l
  | [], _, _ => by simp [splitLinesC, joinC]
  | c :: rest, hcr, hlast => by
    obtain ⟨hc, hrest⟩ : (!(isLineBoundary c) || c == '\n') = true ∧
        rest.all (fun e => !(isLineBoundary e) || e == '\n') = true := by
      simpa [List.all_cons] using hcr
    obtain ⟨m, d, hmd, hdn⟩ : ∃ m d, c :: rest = m ++ [d] ∧ d ≠ '\n' := by
      rcases hlast with h | h
      · exact absurd h (List.cons_ne_nil c rest)
      · exact h
    have hlast' : rest = [] ∨ ∃ m2 d2, rest = m2 ++ [d2] ∧ d2 ≠ '\n' := by
      rcases m with - | ⟨m0, m''⟩
      · left
        have : rest = [] := by
          have := hmd
          simp only [List.nil_append, List.cons_eq_cons] at this
          exact this.2.symm ▸ rfl
        exact this
      · right
        have : rest = m'' ++ [d] := by
          have := hmd
          simp only [List.cons_append, List.cons_eq_cons] at this
          exact this.2
        exact ⟨m'', d, this, hdn⟩
    by_cases hc1 : c = '\n'
    · subst hc1
      rcases hlast' with rfl | hlast2
      · exfalso
        rcases m with - | ⟨m0, m''⟩
        · simp only [List.nil_append, List.cons_eq_cons] at hmd
          exact hdn hmd.1.symm
        · simp only [List.cons_append, List.cons_eq_cons] at hmd
          exact (List.cons_ne_nil m0 m'') (by simpa using hmd.2.symm)
      · have hrne : rest ≠ [] := by
          rcases hlast2 with ⟨m2, d2, rfl, -⟩
          simp
        rw [splitLinesC_cons_nl]
        obtain ⟨x0, xs, hx⟩ := List.exists_cons_of_ne_nil (splitLinesC_ne_nil rest hrne)
        rw [hx]
        have : joinC ([] :: x0 :: xs) = '\n' :: joinC (x0 :: xs) := by simp [joinC]
        rw [this, ← hx, joinC_splitLinesC rest hrest (Or.inr hlast2)]
    · have hcb : isLineBoundary c = false := by
        rcases Bool.or_eq_true_iff.mp hc with hcb1 | hcb2
        · simpa using hcb1
        · exact absurd (beq_iff_eq.mp hcb2) hc1
      rw [splitLinesC_cons_other c rest hcb]
      rcases hres : splitLinesC rest with - | ⟨x0, xs⟩
      · have hrnil : rest = [] := by
          by_contra hrne
          exact splitLinesC_ne_nil rest hrne hres
        subst hrnil
        simp [joinC]
      · have hrne : rest ≠ [] := by
          intro hEq
          rw [hEq] at hres
          simp [splitLinesC] at hres
        simp only
        rw [joinC_cons_cons, ← hres,
          joinC_splitLinesC rest hrest (Or.inr (Or.resolve_left hlast' hrne))]

/-! ### Helper lemmas: `pyStripC` -/

theorem pyStripC_eq_rdrop (l : List Char) :
    pyStripC l = List.rdropWhile isPyWhitespace (l.dropWhile isPyWhitespace) := rfl

theorem rdrop_append_rtake (p : Char → Bool) (l : List Char) :
    List.rdropWhile p l ++ List.rtakeWhile p l = l := by
  rw [List.rdropWhile, List.rtakeWhile, ← List.reverse_append,
    List.takeWhile_append_dropWhile p l.reverse, List.reverse_reverse]

theorem pyStripC_mid (l : List Char) : ∃ u v, l = u ++ pyStripC l ++ v := by
  refine ⟨l.takeWhile isPyWhitespace,
    List.rtakeWhile isPyWhitespace (l.dropWhile isPyWhitespace), ?_⟩
  rw [pyStripC_eq_rdrop, List.append_assoc,
    rdrop_append_rtake isPyWhitespace (l.dropWhile isPyWhitespace),
    List.takeWhile_append_dropWhile isPyWhitespace l]

theorem pyStripC_self_parts {l : List Char} (h : pyStripC l = l) :
    l.dropWhile isPyWhitespace = l ∧ List.rdropWhile isPyWhitespace l = l := by
  have hA : l.dropWhile isPyWhitespace = l := by
    have hsuf := List.dropWhile_suffix (l := l) isPyWhitespace
    have h1 : (List.rdropWhile isPyWhitespace (l.dropWhile isPyWhitespace)).length ≤
        (l.dropWhile isPyWhitespace).length :=
      ( List.rdropWhile_prefix isPyWhitespace (l.dropWhile isPyWhitespace)).length_le
    have h2 : (l.dropWhile isPyWhitespace).length ≤ l.length := hsuf.length_le
    have h3 : (pyStripC l).length = l.length := by rw [h]
    rw [pyStripC_eq_rdrop] at h3
    exact List.IsSuffix.eq_of_length hsuf (Nat.le_antisymm h2 (h3 ▸ h1))
  refine ⟨hA, ?_⟩
  rw [pyStripC_eq_rdrop, hA] at h
  exact h

theorem pyStrip_head_of_self {l : List Char} (c : Char) (m : List Char)
    (h : pyStripC l = l) (hl : l = c :: m) : isPyWhitespace c = false := by
  subst hl
  have hA := (pyStripC_self_parts h).1
  by_contra hc
  have hc' : isPyWhitespace c = true := by
    cases hcv : isPyWhitespace c
    · exact absurd hcv hc
    · rfl
  rw [List.dropWhile_cons, hc'] at hA
  simp only [if_true] at hA
  have : (List.dropWhile isPyWhitespace m).length ≤ m.length :=
    (List.dropWhile_suffix isPyWhitespace).length_le
  rw [hA] at this
  simp at this

theorem pyStrip_last_of_self {l : List Char} (h : pyStripC l = l) (hne : l ≠ []) :
    ∃ m d, l = m ++ [d] ∧ isPyWhitespace d = false := by
  have hB := (pyStripC_self_parts h).2
  refine ⟨l.dropLast, l.getLast hne, (List.dropLast_append_getLast hne).symm, ?_⟩
  have := List.rdropWhile_eq_self_iff.mp hB hne
  cases hdv : isPyWhitespace (l.getLast hne)
  · rfl
  · exact absurd hdv this

/-! ### Helper lemmas: the regex model -/

theorem stripLit_iff : ∀ (p l r : List Char), stripLit p l = some r ↔ l = p ++ r
  | [], l, r => by simp [stripLit]
  | a :: as, [], r => by simp [stripLit]
  | a :: as, b :: bs, r => by
    simp only [stripLit]
    by_cases hab : a = b
    · subst hab
      simp only [beq_self_eq_true, if_true]
      rw [stripLit_iff as bs r]
      simp
    · have hf : (a == b) = false := beq_eq_false_iff_ne.mpr hab
      rw [hf]
      simp only [Bool.false_eq_true, if_false]
      constructor
      · intro h; exact absurd h (by simp)
      · intro h
        exfalso
        simp only [List.cons_append, List.cons_eq_cons] at h
        exact hab h.1.symm

theorem matchHere_some_inv :
    ∀ (alts : List (List Char)) (l g : List Char), matchHere alts l = some g →
      ∃ a, a ∈ alts ∧ ∃ r, stripLit a l = some r ∧ takeId 11 r = some g
  | [], l, g, h => by simp [matchHere] at h
  | a :: rest, l, g, h => by
    simp only [matchHere] at h
    split at h
    · rename_i r hs
      split at h
      · rename_i g2 ht
        obtain rfl : g2 = g := by simpa using h
        exact ⟨a, List.mem_cons_self a rest, r, hs, ht⟩
      · obtain ⟨a2, ha2, hr⟩ := matchHere_some_inv rest l g h
        exact ⟨a2, List.mem_cons_of_mem a ha2, hr⟩
    · obtain ⟨a2, ha2, hr⟩ := matchHere_some_inv rest l g h
      exact ⟨a2, List.mem_cons_of_mem a ha2, hr⟩

theorem matchHere_fetch_veq (r g : List Char) (ht : takeId 11 r = some g) :
    matchHere ["v=".data, "/".data] ('v' :: '=' :: r) = some g := by
  have h1 : stripLit "v=".data ('v' :: '=' :: r) = some r :=
    (stripLit_iff "v=".data ('v' :: '=' :: r) r).mpr rfl
  simp only [matchHere, h1, ht]

theorem matchHere_fetch_slash (r g : List Char) (ht : takeId 11 r = some g) :
    matchHere ["v=".data, "/".data] ('/' :: r) = some g := by
  have h1 : stripLit "v=".data ('/' :: r) = none := by
    show stripLit ['v', '='] ('/' :: r) = none
    simp [stripLit, show (('v' : Char) == '/') = false by decide]
  have h2 : stripLit "/".data ('/' :: r) = some r :=
    (stripLit_iff "/".data ('/' :: r) r).mpr rfl
  simp only [matchHere, h1, h2, ht]

theorem reSearch_of_split :
    ∀ (alts : List (List Char)) (x t : List Char), (matchHere alts t).isSome = true →
      (reSearch alts (x ++ t)).isSome = true
  | alts, [], t, h => by
    cases t with
    | nil => simpa [reSearch] using h
    | cons c rest =>
      simp only [List.nil_append, reSearch]
      rcases hm : matchHere alts (c :: rest) with - | g
      · rw [hm] at h; simp at h
      · simp
  | alts, x0 :: xs, t, h => by
    simp only [List.cons_append, reSearch]
    rcases hm : matchHere alts (x0 :: (xs ++ t)) with - | g
    · exact reSearch_of_split alts xs t h
    · simp

theorem reSearch_isSome_split :
    ∀ (alts : List (List Char)) (l : List Char), (reSearch alts l).isSome = true →
      ∃ x t, l = x ++ t ∧ (matchHere alts t).isSome = true
  | alts, [], h => ⟨[], [], rfl, by simpa [reSearch] using h⟩
  | alts, c :: rest, h => by
    simp only [reSearch] at h
    rcases hm : matchHere alts (c :: rest) with - | g
    · rw [hm] at h
      obtain ⟨x, t, rfl, h2⟩ := reSearch_isSome_split alts rest h
      exact ⟨c :: x, t, rfl, h2⟩
    · exact ⟨[], c :: rest, rfl, by simp [hm]⟩

theorem extract_video_id_isSome_inv (url : String)
    (h : (extract_video_id url).isSome = true) :
    (reSearch ["v=".data, "youtu.be/".data] url.data).isSome = true ∨
    (reSearch ["/embed/".data] url.data).isSome = true ∨
    (reSearch ["/v/".data] url.data).isSome = true := by
  unfold extract_video_id at h
  rcases h1 : reSearch ["v=".data, "youtu.be/".data] url.data with - | g1
  · rw [h1] at h
    rcases h2 : reSearch ["/embed/".data] url.data with - | g2
    · rw [h2] at h
      rcases h3 : reSearch ["/v/".data] url.data with - | g3
      · rw [h3] at h
        simp at h
      · exact Or.inr (Or.inr (by simp [h3]))
    · exact Or.inr (Or.inl (by simp [h2]))
  · exact Or.inl (by simp [h1])

theorem pyStripC_eq_self_of_ends (c : Char) (m : List Char) (d : Char)
    (hc : isPyWhitespace c = false) (hd : isPyWhitespace d = false) :
    pyStripC (c :: (m ++ [d])) = c :: (m ++ [d]) := by
  unfold pyStripC
  rw [List.dropWhile_cons, hc]
  simp only [Bool.false_eq_true, if_false]
  rw [show (c :: (m ++ [d])).reverse = d :: (m.reverse ++ [c]) by simp]
  rw [List.dropWhile_cons, hd]
  simp only [Bool.false_eq_true, if_false]
  simp

/-! ### The claims -/

/-- C1: the Subject Classifier is a total function into the fixed
six-category set: for every input text and every service outcome it
returns a member of `categories`; a failed call returns `"General"`; and a
response in which no category name occurs (case-insensitive substring
match) returns `"General"`.  Totality and the absence of an error value
are expressed by `classify_transcript_subject` being a total Lean
function into `String` whose value always lies in `categories`. -/
theorem classify_subject_total (transcript : String) (resp : Option String) :
    classify_transcript_subject transcript resp ∈ categories ∧
    classify_transcript_subject transcript none = "General" ∧
    (∀ rtext, resp = some rtext →
      (categories.all
        (fun cat => !(strContains (strLower (pyStrip rtext)) (strLower cat)))) = true →
      classify_transcript_subject transcript resp = "General") := by
  refine ⟨?_, rfl, ?_⟩
  · rcases resp with - | rtext
    · simp [classify_transcript_subject, categories]
    · simp only [classify_transcript_subject]
      split
      · rename_i cat heq
        exact List.mem_of_find?_eq_some heq
      · simp [categories]
  · intro rtext hr hall
    subst hr
    simp only [classify_transcript_subject]
    have hf : categories.find?
        (fun cat => strContains (strLower (pyStrip rtext)) (strLower cat)) = none := by
      rw [List.find?_eq_none]
      intro x hx
      have := List.all_eq_true.mp hall x hx
      simp only [Bool.not_eq_true'] at this
      simp [this]
    rw [hf]

/-- Witness for C1 at a concrete unclassifiable response. -/
theorem classify_subject_total_witness :
    classify_transcript_subject "" (some "zzz") ∈ categories ∧
    classify_transcript_subject "" (some "zzz") = "General" :=
  ⟨(classify_subject_total "" (some "zzz")).1,
   (classify_subject_total "" (some "zzz")).2.2 "zzz" rfl (by decide)⟩

/-- C2: the Prose Refiner has an identity fallback and never raises: a
raised service call returns the raw transcript unchanged, and so does an
empty response (Python `if not response.text`, covering `None` and `""`).
Exception-freedom is expressed by `refine_transcript_for_notes` being a
total Lean function. -/
theorem refine_identity_fallback (raw msg : String) :
    refine_transcript_for_notes raw (.failure msg) = raw ∧
    refine_transcript_for_notes raw (.success "") = raw := by
  constructor
  · rfl
  · simp [refine_transcript_for_notes]

/-- C3: a fetched transcript whose stripped length is under 200 characters
makes the whole run fatal: the orchestrator exits with status 2 (non-zero,
distinct from the interrupt status 130), and neither the notes-generation
stage nor the compilation stage is invoked. -/
theorem too_short_transcript_fatal (url : String) (fetch : FetchOutcome)
    (refineOutcome : GenOutcome) (classifyResp : Option String) (genResp : GenOutcome)
    (noPdf : Bool)
    (h : (pyStrip (get_youtube_transcript url fetch refineOutcome)).length < 200) :
    (mainRun url fetch refineOutcome classifyResp genResp noPdf).exitCode = 2 ∧
    (mainRun url fetch refineOutcome classifyResp genResp noPdf).exitCode ≠ 0 ∧
    (mainRun url fetch refineOutcome classifyResp genResp noPdf).generationInvoked = false ∧
    (mainRun url fetch refineOutcome classifyResp genResp noPdf).compilationInvoked = false := by
  unfold mainRun
  rw [if_pos h]
  exact ⟨rfl, by decide, rfl, rfl⟩

/-- Witness for C3: a malformed URL produces the short `"Invalid YouTube
URL"` payload (19 characters, under the floor). -/
theorem too_short_transcript_fatal_witness :
    (pyStrip (get_youtube_transcript "x" (.ok []) (.failure ""))).length < 200 ∧
    (mainRun "x" (.ok []) (.failure "") none (.success "y") false).exitCode = 2 ∧
    (mainRun "x" (.ok []) (.failure "") none (.success "y") false).generationInvoked = false ∧
    (mainRun "x" (.ok []) (.failure "") none (.success "y") false).compilationInvoked = false := by
  have h := too_short_transcript_fatal "x" (.ok []) (.failure "") none (.success "y") false
    (by decide)
  exact ⟨by decide, h.1, h.2.2.1, h.2.2.2⟩

/-- C5 counterexample: when the first `pdflatex` invocation exits non-zero,
`check=True` raises `CalledProcessError` out of the loop, so the second
invocation never happens — the tool is invoked once, not twice; this
refutes "exactly twice, regardless of the outcome of the first
invocation". -/
theorem compile_two_runs_counterexample :
    ¬ (compile_latex_to_pdf (.exitNonzero "latexerror") .ok true).invocations = 2 := by
  decide

/-- C5 amended: on every compilation attempt the tool is invoked exactly
twice when the first invocation does not raise; when the first invocation
raises (non-zero exit, missing binary, or any other exception), the loop
aborts and exactly one invocation is attempted. -/
theorem compile_run_count (first second : ToolOutcome) (pdfExists : Bool) :
    (toolRaises first = false →
      (compile_latex_to_pdf first second pdfExists).invocations = 2) ∧
    (toolRaises first = true →
      (compile_latex_to_pdf first second pdfExists).invocations = 1) := by
  unfold compile_latex_to_pdf
  constructor
  · intro h
    rw [h]
    simp only [Bool.false_eq_true, if_false]
    by_cases h2 : toolRaises second <;> simp [h2]
  · intro h
    rw [h]
    simp

/-- Witness for C5 (amended) at concrete tool outcomes. -/
theorem compile_run_count_witness :
    toolRaises .ok = false ∧
    (compile_latex_to_pdf .ok .ok true).invocations = 2 ∧
    toolRaises (.exitNonzero "latexerror") = true ∧
    (compile_latex_to_pdf (.exitNonzero "latexerror") .ok true).invocations = 1 :=
  ⟨rfl, (compile_run_count .ok .ok true).1 rfl, rfl,
   (compile_run_count (.exitNonzero "latexerror") .ok true).2 rfl⟩

set_option maxRecDepth 16384 in
/-- C9: the Template Selector is a pure total mapping (a total Lean
function, no I/O and no failure): every string outside the six-category
enumeration maps to the `"General"` template, the six enumerated
categories map to pairwise distinct bespoke templates, and the Physics
template's required packages include the SI-notation package
`siunitx`. -/
theorem subject_prompt_mapping :
    (∀ s : String, s ∉ categories → get_subject_prompt s = get_subject_prompt "General") ∧
    strContains (get_subject_prompt "Physics") "siunitx" = true ∧
    (categories.map get_subject_prompt).Pairwise (fun a b => a ≠ b) := by
  refine ⟨?_, by decide, by decide⟩
  intro s hs
  simp only [categories, List.mem_cons, List.not_mem_nil, or_false, not_or] at hs
  obtain ⟨h1, h2, h3, h4, h5, h6⟩ := hs
  simp only [get_subject_prompt, beq_eq_false_iff_ne.mpr h1, beq_eq_false_iff_ne.mpr h2,
    beq_eq_false_iff_ne.mpr h3, beq_eq_false_iff_ne.mpr h4, beq_eq_false_iff_ne.mpr h5,
    Bool.false_eq_true, if_false]
  decide

/-- Witness for C9 at the concrete unmapped subject `"Biology"`. -/
theorem subject_prompt_mapping_witness :
    get_subject_prompt "Biology" = get_subject_prompt "General" :=
  subject_prompt_mapping.1 "Biology" (by decide)

/-- C4 counterexample: the response line starting with a fence delimiter
followed by an info string is not purely a bare fence marker, yet the
sanitization removes it (the code filters on
`line.strip().startswith('```')`), so the result differs from removing
exactly the bare fence-marker lines. -/
theorem sanitize_bare_fence_counterexample :
    generate_latex_notes "" none (.success "a\n```latex\nb") ≠
      sanitizeBareFenceOnly "a\n```latex\nb" := by
  decide

/-- C4 amended: for every non-empty response containing a fence delimiter,
the sanitization removes exactly the lines whose *stripped form starts
with* the delimiter (not only the lines that are purely a bare marker),
rejoins the remaining lines with newlines and strips the result; a
response with no fence delimiter is returned stripped and otherwise
unchanged. -/
theorem sanitize_startswith_fence (transcript : String) (classifyResp : Option String)
    (t : String) (h : t ≠ "") :
    (strContains (pyStrip t) "```" = true →
      generate_latex_notes transcript classifyResp (.success t) =
        pyStrip (String.mk (joinC ((splitLinesC (pyStrip t).data).filter
          (fun line => !(listStartsWith (pyStripC line) fenceChars)))))) ∧
    (strContains (pyStrip t) "```" = false →
      generate_latex_notes transcript classifyResp (.success t) = pyStrip t) := by
  have hne : (t == "") = false := beq_eq_false_iff_ne.mpr h
  constructor
  · intro hc
    simp only [generate_latex_notes, hne, Bool.false_eq_true, if_false, sanitizeLatex, hc,
      if_true]
  · intro hc
    simp only [generate_latex_notes, hne, Bool.false_eq_true, if_false, sanitizeLatex, hc,
      if_true]

/-- Witness for C4 (amended) at a concrete fenced response. -/
theorem sanitize_startswith_fence_witness :
    strContains (pyStrip "x\n```\ny") "```" = true ∧
    generate_latex_notes "" none (.success "x\n```\ny") =
      pyStrip (String.mk (joinC ((splitLinesC (pyStrip "x\n```\ny").data).filter
        (fun line => !(listStartsWith (pyStripC line) fenceChars))))) := by
  refine ⟨by decide, ?_⟩
  exact (sanitize_startswith_fence "" none "x\n```\ny" (by decide)).1 (by decide)

/-- C6 counterexample: for `https://example.org/abcdefghijk` the
Transcript Fetcher's pattern matches (any `/` followed by eleven
identifier characters) while `extract_video_id` finds no identifier, so
the two extractions do not succeed on the same URLs. -/
theorem video_id_match_counterexample :
    ¬ ((extract_video_id "https://example.org/abcdefghijk").isSome = true ↔
       (fetchVideoId "https://example.org/abcdefghijk").isSome = true) := by
  decide

/-- C6 amended: the equivalence holds in one direction only: whenever
`extract_video_id` returns an identifier, the Transcript Fetcher's
11-character match also succeeds; the converse fails, and even when both
succeed the tokens can differ (last conjuncts: a concrete URL on which
both succeed but return different tokens). -/
theorem extract_implies_fetch_match :
    (∀ url : String, (extract_video_id url).isSome = true →
      (fetchVideoId url).isSome = true) ∧
    (extract_video_id "/embed/ABCDEFGHIJK?v=LMNOPQRSTUV").isSome = true ∧
    (fetchVideoId "/embed/ABCDEFGHIJK?v=LMNOPQRSTUV").isSome = true ∧
    extract_video_id "/embed/ABCDEFGHIJK?v=LMNOPQRSTUV" ≠
      fetchVideoId "/embed/ABCDEFGHIJK?v=LMNOPQRSTUV" := by
  refine ⟨?_, by decide, by decide, by decide⟩
  intro url h
  have key : (reSearch ["v=".data, "/".data] url.data).isSome = true := by
    rcases extract_video_id_isSome_inv url h with h1 | h2 | h3
    · obtain ⟨x, t, hxt, hm⟩ := reSearch_isSome_split _ _ h1
      obtain ⟨g, hg⟩ := Option.isSome_iff_exists.mp hm
      obtain ⟨a, ha, r, hs, ht⟩ := matchHere_some_inv _ _ _ hg
      simp only [List.mem_cons, List.not_mem_nil, or_false] at ha
      rcases ha with rfl | rfl
      · have htr : t = 'v' :: '=' :: r := by
          have := (stripLit_iff "v=".data t r).mp hs
          simpa using this
        rw [hxt, htr]
        exact reSearch_of_split _ x ('v' :: '=' :: r)
          (by rw [matchHere_fetch_veq r g ht]; rfl)
      · have htr : t = "youtu.be".data ++ ('/' :: r) := by
          have h0 := (stripLit_iff "youtu.be/".data t r).mp hs
          rw [h0, show ("youtu.be/").data = "youtu.be".data ++ ['/'] from rfl]
          simp
        have hurl : url.data = (x ++ "youtu.be".data) ++ ('/' :: r) := by
          rw [hxt, htr]
          simp
        rw [hurl]
        exact reSearch_of_split _ (x ++ "youtu.be".data) ('/' :: r)
          (by rw [matchHere_fetch_slash r g ht]; rfl)
    · obtain ⟨x, t, hxt, hm⟩ := reSearch_isSome_split _ _ h2
      obtain ⟨g, hg⟩ := Option.isSome_iff_exists.mp hm
      obtain ⟨a, ha, r, hs, ht⟩ := matchHere_some_inv _ _ _ hg
      simp only [List.mem_cons, List.not_mem_nil, or_false] at ha
      subst ha
      have htr : t = "/embed".data ++ ('/' :: r) := by
        have h0 := (stripLit_iff "/embed/".data t r).mp hs
        rw [h0, show ("/embed/").data = "/embed".data ++ ['/'] from rfl]
        simp
      have hurl : url.data = (x ++ "/embed".data) ++ ('/' :: r) := by
        rw [hxt, htr]
        simp
      rw [hurl]
      exact reSearch_of_split _ (x ++ "/embed".data) ('/' :: r)
        (by rw [matchHere_fetch_slash r g ht]; rfl)
    · obtain ⟨x, t, hxt, hm⟩ := reSearch_isSome_split _ _ h3
      obtain ⟨g, hg⟩ := Option.isSome_iff_exists.mp hm
      obtain ⟨a, ha, r, hs, ht⟩ := matchHere_some_inv _ _ _ hg
      simp only [List.mem_cons, List.not_mem_nil, or_false] at ha
      subst ha
      have htr : t = "/v".data ++ ('/' :: r) := by
        have h0 := (stripLit_iff "/v/".data t r).mp hs
        rw [h0, show ("/v/").data = "/v".data ++ ['/'] from rfl]
        simp
      have hurl : url.data = (x ++ "/v".data) ++ ('/' :: r) := by
        rw [hxt, htr]
        simp
      rw [hurl]
      exact reSearch_of_split _ (x ++ "/v".data) ('/' :: r)
        (by rw [matchHere_fetch_slash r g ht]; rfl)
  obtain ⟨g, hg⟩ := Option.isSome_iff_exists.mp key
  simp [fetchVideoId, hg]

/-- Witness for C6 (amended) at a concrete well-formed URL. -/
theorem extract_implies_fetch_match_witness :
    (fetchVideoId "https://www.youtube.com/watch?v=dQw4w9WgXcQ").isSome = true :=
  extract_implies_fetch_match.1 "https://www.youtube.com/watch?v=dQw4w9WgXcQ" (by decide)

/-- C7 counterexample: the non-empty response `"hello"` is returned as the
document source `"hello"`, which neither begins with a document-class
directive nor ends with a document-end directive — the invariant is not
enforced by the code for arbitrary responses. -/
theorem notes_invariant_counterexample :
    ¬ (strStartsWith (generate_latex_notes "" none (.success "hello")) "\\documentclass" = true ∧
       strEndsWith (generate_latex_notes "" none (.success "hello")) "\\end\x7bdocument\x7d" = true ∧
       strContains (generate_latex_notes "" none (.success "hello")) "```" = false) := by
  decide

/-- C7 amended: the begins/ends/no-fence invariant of the returned
document source holds exactly when the response carries it: for every
well-formed body (non-empty, no surrounding whitespace, no line-boundary
characters other than the plain newline, no fence delimiter, beginning
with a document-class directive and ending with a document-end
directive), the Notes Generator returns the body unchanged both for the
bare response and for the response wrapped in a markdown code fence, and
the returned source then begins with the document-class directive, ends
with the document-end directive and contains no fence delimiter. -/
theorem notes_wellformed_response (transcript : String) (classifyResp : Option String)
    (body : String)
    (h1 : body ≠ "") (h2 : pyStrip body = body)
    (h3 : strContains body "```" = false) (h4 : onlyNlBoundaries body = true)
    (h5 : strStartsWith body "\\documentclass" = true)
    (h6 : strEndsWith body "\\end\x7bdocument\x7d" = true) :
    generate_latex_notes transcript classifyResp (.success body) = body ∧
    generate_latex_notes transcript classifyResp
      (.success ("```latex\n" ++ body ++ "\n```")) = body ∧
    strStartsWith (generate_latex_notes transcript classifyResp
      (.success ("```latex\n" ++ body ++ "\n```"))) "\\documentclass" = true ∧
    strEndsWith (generate_latex_notes transcript classifyResp
      (.success ("```latex\n" ++ body ++ "\n```"))) "\\end\x7bdocument\x7d" = true ∧
    strContains (generate_latex_notes transcript classifyResp
      (.success ("```latex\n" ++ body ++ "\n```"))) "```" = false := by
  have hbne : (body == "") = false := beq_eq_false_iff_ne.mpr h1
  have part1 : generate_latex_notes transcript classifyResp (.success body) = body := by
    simp only [generate_latex_notes, hbne, Bool.false_eq_true, if_false, sanitizeLatex, h2, h3]
  have hGne : body.data ≠ [] := by
    intro hd
    exact h1 (strdata_inj (by rw [hd]))
  have hstripG : pyStripC body.data = body.data := congrArg String.data h2
  obtain ⟨m2, d2, hmd, hd2ws⟩ := pyStrip_last_of_self hstripG hGne
  have hd2n : d2 ≠ '\n' := by
    intro hEq
    rw [hEq] at hd2ws
    simp [isPyWhitespace] at hd2ws
  have hall : body.data.all (fun c => !(isLineBoundary c) || c == '\n') = true := h4
  have hm2all : m2.all (fun c => !(isLineBoundary c) || c == '\n') = true := by
    have hcopy := hall
    rw [hmd] at hcopy
    simp only [List.all_append, Bool.and_eq_true] at hcopy
    exact hcopy.1
  have hd2b : isLineBoundary d2 = false := by
    have hp : (!(isLineBoundary d2) || d2 == '\n') = true := by
      have hcopy := hall
      rw [hmd] at hcopy
      simp only [List.all_append, List.all_cons, Bool.and_eq_true] at hcopy
      exact hcopy.2.1
    rcases Bool.or_eq_true_iff.mp hp with hb1 | hb2
    · simpa using hb1
    · exact absurd (beq_iff_eq.mp hb2) hd2n
  have htdata : ("```latex\n" ++ body ++ "\n```").data
      = "```latex".data ++ ('\n' :: (body.data ++ ('\n' :: "```".data))) := by
    rw [strdata_append, strdata_append,
      show ("```latex\n").data = "```latex".data ++ ['\n'] from rfl,
      show ("\n```").data = '\n' :: "```".data from rfl]
    simp
  have htne : (("```latex\n" ++ body ++ "\n```") == "") = false := by
    apply beq_eq_false_iff_ne.mpr
    intro hEq
    have hd := congrArg String.data hEq
    rw [htdata] at hd
    have h0 : "```latex".data = [] := (List.append_eq_nil.mp hd).1
    exact (by decide : "```latex".data ≠ []) h0
  have hMform : "```latex".data ++ ('\n' :: (body.data ++ ('\n' :: "```".data)))
      = backtick :: (("``latex".data ++
          ('\n' :: (body.data ++ ('\n' :: "``".data)))) ++ [backtick]) := by
    rw [show ("```latex").data = backtick :: "``latex".data from by decide,
      show ("```").data = "``".data ++ [backtick] from by decide]
    simp [List.append_assoc]
  have hstripT : pyStrip ("```latex\n" ++ body ++ "\n```") = "```latex\n" ++ body ++ "\n```" := by
    unfold pyStrip
    rw [htdata, hMform,
      pyStripC_eq_self_of_ends backtick _ backtick (by decide) (by decide),
      ← hMform, ← htdata]
  have hcontainsT : strContains ("```latex\n" ++ body ++ "\n```") "```" = true := by
    apply listContainsSub_of_startsWith
    apply (listStartsWith_iff _ _).mpr
    refine ⟨"latex".data ++ ('\n' :: (body.data ++ ('\n' :: "```".data))), ?_⟩
    show ("```latex\n" ++ body ++ "\n```").data = "```".data ++ _
    rw [htdata, show ("```latex").data = "```".data ++ "latex".data from rfl]
    simp [List.append_assoc]
  have hW2 : "```latex".data = "```late".data ++ ['x'] := rfl
  have hlines : splitLinesC ("```latex\n" ++ body ++ "\n```").data
      = "```latex".data :: (splitLinesC body.data ++ ["```".data]) := by
    rw [htdata, hW2,
      splitLinesC_append "```late".data 'x' _ (by decide) (by decide), ← hW2,
      show splitLinesC ("```latex".data) = ["```latex".data] from by decide,
      hmd, splitLinesC_append m2 d2 _ hm2all hd2b, ← hmd,
      show splitLinesC ("```".data) = ["```".data] from by decide]
    simp
  have hfilter : ∀ line ∈ splitLinesC body.data,
      (!(listStartsWith (pyStripC line) fenceChars)) = true := by
    intro line hline
    by_contra hb
    have hsw : listStartsWith (pyStripC line) fenceChars = true := by
      cases hv : listStartsWith (pyStripC line) fenceChars
      · rw [hv] at hb
        simp at hb
      · rfl
    obtain ⟨r, hr⟩ := (listStartsWith_iff _ _).mp hsw
    obtain ⟨u, v, huv⟩ := pyStripC_mid line
    obtain ⟨x, y, hxy⟩ := splitLinesC_mem_split body.data line hline
    have hcontains : listContainsSub body.data fenceChars = true := by
      apply (listContainsSub_iff _ _).mpr
      refine ⟨x ++ u, r ++ v ++ y, ?_⟩
      rw [hxy, huv, hr]
      simp [List.append_assoc]
    have h3' : listContainsSub body.data fenceChars = false := h3
    rw [h3'] at hcontains
    exact Bool.false_ne_true hcontains
  have hfG : (splitLinesC body.data).filter
      (fun line => !(listStartsWith (pyStripC line) fenceChars)) = splitLinesC body.data :=
    List.filter_eq_self.mpr hfilter
  have part2 : generate_latex_notes transcript classifyResp
      (.success ("```latex\n" ++ body ++ "\n```")) = body := by
    simp only [generate_latex_notes, htne, Bool.false_eq_true, if_false, sanitizeLatex]
    rw [hstripT, hcontainsT]
    rw [if_pos rfl]
    rw [hlines, List.filter_cons,
      show (!(listStartsWith (pyStripC ("```latex".data)) fenceChars)) = false from by decide]
    simp only [Bool.false_eq_true, if_false]
    rw [List.filter_append, hfG,
      show (["```".data].filter
        (fun line => !(listStartsWith (pyStripC line) fenceChars))) = [] from by decide,
      List.append_nil,
      joinC_splitLinesC body.data hall (Or.inr ⟨m2, d2, hmd, hd2n⟩),
      strmk_data, h2]
  refine ⟨part1, part2, ?_, ?_, ?_⟩
  · rw [part2]
    exact h5
  · rw [part2]
    exact h6
  · rw [part2]
    exact h3

set_option maxRecDepth 16384 in
/-- Witness for C7 (amended) at a concrete well-formed document body,
bare and fence-wrapped. -/
theorem notes_wellformed_response_witness :
    pyStrip "\\documentclass\x7barticle\x7d\nX\n\\end\x7bdocument\x7d" =
      "\\documentclass\x7barticle\x7d\nX\n\\end\x7bdocument\x7d" ∧
    generate_latex_notes "" none
      (.success "\\documentclass\x7barticle\x7d\nX\n\\end\x7bdocument\x7d") =
      "\\documentclass\x7barticle\x7d\nX\n\\end\x7bdocument\x7d" ∧
    generate_latex_notes "" none
      (.success ("```latex\n" ++ "\\documentclass\x7barticle\x7d\nX\n\\end\x7bdocument\x7d" ++ "\n```")) =
      "\\documentclass\x7barticle\x7d\nX\n\\end\x7bdocument\x7d" := by
  have h := notes_wellformed_response "" none
    "\\documentclass\x7barticle\x7d\nX\n\\end\x7bdocument\x7d"
    (by decide) (by decide) (by decide) (by decide) (by decide) (by decide)
  exact ⟨by decide, h.1, h.2.1⟩

/-- C10: `compile_latex_to_pdf` restores the process working directory
only on its success path: if either tool invocation exits non-zero, the
binary is missing, or any other exception is raised after the `chdir`
into the output directory, the function returns with the working
directory still set to the output directory; only when both invocations
succeed is the original directory restored. -/
theorem compile_cwd_restoration (d m : String) (second : ToolOutcome) (pdfExists : Bool) :
    (compile_latex_to_pdf (.exitNonzero d) second pdfExists).cwdIsOutputDir = true ∧
    (compile_latex_to_pdf .notFound second pdfExists).cwdIsOutputDir = true ∧
    (compile_latex_to_pdf (.otherExc m) second pdfExists).cwdIsOutputDir = true ∧
    (compile_latex_to_pdf .ok (.exitNonzero d) pdfExists).cwdIsOutputDir = true ∧
    (compile_latex_to_pdf .ok .notFound pdfExists).cwdIsOutputDir = true ∧
    (compile_latex_to_pdf .ok (.otherExc m) pdfExists).cwdIsOutputDir = true ∧
    (compile_latex_to_pdf .ok .ok pdfExists).cwdIsOutputDir = false :=
  ⟨rfl, rfl, rfl, rfl, rfl, rfl, rfl⟩
